import Mathlib

/-!
Shallow embedding of the search-aggregation and configuration-change code of
the `google-custom-search` repository (files `src/search.py`, `src/app.py`,
`src/utils.py`, `src/shared.py`), together with theorems settling the
specification claims about it.

Modelling conventions:
* Python ints are `Int` (`//` is `Int.fdiv`, Python's floor division).
* Python floats (the page durations) are `ℚ`; `round(x, 2)` is `round2`.
* Python exceptions are the `PyErr` type; a function that can raise returns
  `Except PyErr α`.
* Python dicts are association lists with distinct keys; `d[k] = v` is
  `dictInsert` (overwrite in place, append if new), `d.pop(k)` is `popKey`.
* Thread-pool completion order (`as_completed`) is an explicit `order`
  argument: any permutation of the submitted start indices.
-/

/-- A Python exception, as far as the modelled code distinguishes them. -/
inductive PyErr where
  | keyError (name : String)    -- dict.pop on a missing key
  | valueError (msg : String)   -- list.remove on a missing element, int() parse failure
  | other (msg : String)        -- any other exception
deriving DecidableEq, Repr

instance {ε α : Type} [DecidableEq ε] [DecidableEq α] : DecidableEq (Except ε α)
  | .ok a, .ok b =>
    match decEq a b with
    | isTrue h => isTrue (by rw [h])
    | isFalse h => isFalse (by intro hh; cases hh; exact h rfl)
  | .ok _, .error _ => isFalse (by intro h; cases h)
  | .error _, .ok _ => isFalse (by intro h; cases h)
  | .error e, .error f =>
    match decEq e f with
    | isTrue h => isTrue (by rw [h])
    | isFalse h => isFalse (by intro hh; cases hh; exact h rfl)

/-- Python dict assignment `d[k] = v` on an association list: overwrite in
place when the key is present, append otherwise. -/
def dictInsert {α β : Type} [DecidableEq α] (m : List (α × β)) (k : α) (v : β) :
    List (α × β) :=
  if ∃ p ∈ m, p.1 = k then
    m.map (fun p => if p.1 = k then (k, v) else p)
  else m ++ [(k, v)]

/-- Python `d.get(k)` on an association list: the value at the first
occurrence of the key, if any. -/
def alookup {α β : Type} [DecidableEq α] (k : α) : List (α × β) → Option β
  | [] => none
  | p :: ps => if p.1 = k then some p.2 else alookup k ps

/-- Python `round` (banker's rounding, round half to even) on a rational. -/
def pyRound (q : ℚ) : ℤ :=
  let f : ℤ := ⌊q⌋
  let r : ℚ := q - f
  if r < 1/2 then f
  else if 1/2 < r then f + 1
  else if f % 2 = 0 then f else f + 1

/-- Python `round(q, 2)`: round to two decimal places. -/
def round2 (q : ℚ) : ℚ := (pyRound (q * 100) : ℚ) / 100

/-! ## Configuration Change Engine (`src/utils.py`)

`update_env_file` (lines 60-73) applies a changeset to a dict-based `.env`
store; `update_proxy_file` (lines 75-85) applies one to a list-based domain
store.  Both write the whole backing file afterwards; the functions below
return the new store (from which the file is rendered), or the exception
raised before the file was opened. -/

/-- One `upd` entry of a changeset for the dict-based store:
`{original, name, value}` (`value` may be absent, i.e. `None`). -/
structure EnvUpd where
  original : String
  name : String
  value : Option String
deriving DecidableEq, Repr

/-- One `add` entry of a changeset for the dict-based store. -/
structure EnvAdd where
  name : String
  value : Option String
deriving DecidableEq, Repr

/-- A changeset for the dict-based store: `changes.get('del'/'upd'/'add', [])`. -/
structure EnvChanges where
  del : List String
  upd : List EnvUpd
  add : List EnvAdd
deriving DecidableEq, Repr

/-- One `upd` entry of a changeset for the list-based store. -/
structure ProxyUpd where
  original : String
  name : String
deriving DecidableEq, Repr

/-- One `add` entry of a changeset for the list-based store. -/
structure ProxyAdd where
  name : String
deriving DecidableEq, Repr

/-- A changeset for the list-based store. -/
structure ProxyChanges where
  del : List String
  upd : List ProxyUpd
  add : List ProxyAdd
deriving DecidableEq, Repr

/-- The dict-based store: insertion-ordered `name ↦ value` pairs, values
possibly `None` (Python would render those as the string `None`). -/
abbrev EnvData := List (String × Option String)

/-- `env_data.pop(name)`: remove the key, `KeyError` if absent. -/
def popKey (env : EnvData) (name : String) : Except PyErr EnvData :=
  if ∃ p ∈ env, p.1 = name then
    .ok (env.eraseP (fun p => p.1 = name))
  else .error (.keyError name)

/-- Python `x or v` for an optional string `x`: `None` and `""` are falsy. -/
def pyOrElse (x : Option String) (v : Option String) : Option String :=
  match x with
  | none => v
  | some s => if s = "" then v else some s

/-- `update_env_file` (src/utils.py lines 60-73), up to the final file write:
delete each `del` name (KeyError if absent), rebuild the dict renaming and
revaluing per the `upd` map, then apply each `add` as a dict assignment.
Returns the final dict, from which the file is fully rewritten. -/
def update_env_file (env : EnvData) (changes : EnvChanges) : Except PyErr EnvData :=
  match changes.del.foldlM popKey env with
  | .error e => .error e
  | .ok env =>
    -- update_map = {upd['original']: (upd['name'], upd['value']) for upd in changes['upd']}
    let update_map : List (String × (String × Option String)) :=
      changes.upd.foldl (fun m u => dictInsert m u.original (u.name, u.value)) []
    -- env_data = {update_map.get(k, (k, None))[0]: (upd[1] or v) for k, v in env_data.items()}
    let env := env.foldl (fun acc p =>
      let u := (alookup p.1 update_map).getD (p.1, none)
      dictInsert acc u.1 (pyOrElse u.2 p.2)) []
    -- for add in changes['add']: env_data[add['name']] = add['value']
    .ok (changes.add.foldl (fun e a => dictInsert e a.name a.value) env)

/-- How the dict store is persisted: one `'name'='value'` line per entry
(a `None` value renders as the string `None`, as in the f-string). -/
def renderEnv (env : EnvData) : String :=
  env.foldl (fun s p => s ++ "'" ++ p.1 ++ "'='" ++ p.2.getD "None" ++ "'\n") ""

/-- `domains.remove(name)`: drop the first occurrence, ValueError if absent. -/
def removeFirst (domains : List String) (name : String) : Except PyErr (List String) :=
  if domains.contains name then .ok (domains.erase name)
  else .error (.valueError name)

/-- `update_proxy_file` (src/utils.py lines 75-85), up to the final file
write: remove each `del` name (ValueError if absent), rename per the `upd`
map, then append every `add` name unconditionally. -/
def update_proxy_file (domains : List String) (changes : ProxyChanges) :
    Except PyErr (List String) :=
  match changes.del.foldlM removeFirst domains with
  | .error e => .error e
  | .ok domains =>
    -- update_map = {upd['original']: upd['name'] for upd in changes['upd']}
    let update_map : List (String × String) :=
      changes.upd.foldl (fun m u => dictInsert m u.original u.name) []
    -- domains = [update_map.get(d, d) for d in domains]
    let domains := domains.map (fun d => (alookup d update_map).getD d)
    -- for add in changes['add']: domains.append(add['name'])
    .ok (changes.add.foldl (fun ds a => ds ++ [a.name]) domains)

/-- How the list store is persisted: one name per line. -/
def renderProxy (domains : List String) : String :=
  domains.foldl (fun s d => s ++ d ++ "\n") ""

/-- The observable effect of one `update_env_file` call on the backing file:
the file is rewritten only when no exception was raised (the `del` loop runs
before `open(file_path, 'w')`). -/
def runUpdateEnv (fileContent : String) (env : EnvData) (changes : EnvChanges) : String :=
  match update_env_file env changes with
  | .ok env2 => renderEnv env2
  | .error _ => fileContent

/-- The observable effect of one `update_proxy_file` call on the backing
file: rewritten only when no exception was raised. -/
def runUpdateProxy (fileContent : String) (domains : List String)
    (changes : ProxyChanges) : String :=
  match update_proxy_file domains changes with
  | .ok ds => renderProxy ds
  | .error _ => fileContent

/-! ## PageFetcher and BreadcrumbBuilder (`src/search.py`, `src/app.py`)

The remote call `requests.get(url, params).json()` is modelled by a
`RawResponse` value: either a transport failure (timeout, connection error,
or a non-JSON body, all of which raise `requests.exceptions.RequestException`)
or a parsed JSON body with the fields the code reads.  Durations are `ℚ`. -/

/-- One search result as assembled by `extract_results`. -/
structure SearchResult where
  title : Option String
  link : Option String
  display_link : Option String
  snippet : Option String
  breadcrumb_trail : String
deriving DecidableEq, Repr

/-- One entry of the response's `items[]` array, restricted to the fields the
code reads.  `listitemNames` holds `pagemap.listitem[*].name`; `link` and
`displayLink` are taken as present (the API always provides them; a missing
`link` would raise `TypeError` inside `re.sub`, which no claim exercises). -/
structure Item where
  htmlTitle : Option String
  link : String
  displayLink : String
  htmlSnippet : Option String
  listitemNames : List String
deriving DecidableEq, Repr

/-- The API's structured error object (`code`/`message`, per the API contract
described for the remote search call). -/
structure ApiError where
  code : Int
  message : String
deriving DecidableEq, Repr

/-- A parsed JSON response body, restricted to the fields the code reads.
`totalResults` is the raw numeric string (`int(...)` parses it);
`searchTime` defaults to `0` when absent (`search_info.get("searchTime", 0)`). -/
structure ResponseBody where
  error : Option ApiError
  items : List Item
  nextPageStartIndex : Option Int  -- queries.nextPage[0].startIndex
  totalResults : Option String     -- searchInformation.totalResults
  searchTime : ℚ
deriving DecidableEq, Repr

/-- Outcome of `requests.get(url, params).json()` for one page request. -/
inductive RawResponse where
  | transportError (msg : String)  -- RequestException: timeout, connection error, non-JSON body
  | ok (body : ResponseBody)
deriving DecidableEq, Repr

/-- `MAX_RESULTS` (src/shared.py line 6, src/app.py line 17). -/
def MAX_RESULTS : Int := 10

/-- `__format` inside `refine_breadcrumb_trail`: a segment longer than 30
characters becomes the given replacement (default `"..."`). -/
def fmtSegment (segment : String) (value : String := "...") : String :=
  if segment.length > 30 then value else segment

/-- `refine_breadcrumb_trail` (src/search.py lines 73-77): keep the first and
last segments verbatim, replace every long interior segment by `"..."`, join
with `" > "`, and truncate the whole trail at 95 characters (plus `"..."`).
Callers always pass a nonempty list (`str.split` never returns `[]`); on `[]`
Python would raise IndexError, modelled here by `""` defaults. -/
def refine_breadcrumb_trail (segments : List String) : String :=
  -- " > ".join([segments[0]] + [__format(s) for s in segments[1:-1]] + [segments[-1]])
  let trail := String.intercalate " > "
    ([segments.headD ""] ++ ((segments.drop 1).dropLast.map (fmtSegment ·)) ++ [segments.getLastD ""])
  if trail.length > 95 then trail.take 95 ++ "..." else trail

/-- `refine_breadcrumb_trail` (src/app.py lines 308-317): replace every long
non-final segment (including the first) by `"..."`, truncate a long final
segment to its first 30 characters plus `"..."`; no overall length bound. -/
def refine_breadcrumb_trail_app (segments : List String) : String :=
  let formatted := segments.dropLast.map (fmtSegment ·)
  let formatted := if segments ≠ [] then
      formatted ++ [fmtSegment (segments.getLastD "") ((segments.getLastD "").take 30 ++ "...")]
    else formatted
  String.intercalate " > " formatted

/-- `sub(r'https?://', '', s)`: delete every occurrence of `https://` or
`http://` (the regex engine scans left to right; at each position the greedy
`s?` tries `https://` before `http://`). -/
def stripProtocol : List Char → List Char
  | [] => []
  | c :: rest =>
    if (c :: rest).take 8 = "https://".toList then stripProtocol (rest.drop 7)
    else if (c :: rest).take 7 = "http://".toList then stripProtocol (rest.drop 6)
    else c :: stripProtocol rest
termination_by l => l.length
decreasing_by
  · simp only [List.length_drop, List.length_cons]; omega
  · simp only [List.length_drop, List.length_cons]; omega
  · simp [List.length_cons]

/-- `sub(r'(.*?)(\?|\.php|\.html).*', r'\1', s)`: keep the prefix before the
earliest occurrence of `?`, `.php` or `.html` and drop the rest; if none
occurs the string is unchanged.  (`.` does not match a newline, but URLs
contain none.) -/
def stripAfterStop : List Char → List Char
  | [] => []
  | c :: rest =>
    if c = '?' ∨ (c :: rest).take 4 = ".php".toList ∨ (c :: rest).take 5 = ".html".toList then []
    else c :: stripAfterStop rest

/-- `extract_breadcrumb_trail` (src/search.py lines 59-71; identical in
src/app.py lines 291-305 except that it calls that file's
`refine_breadcrumb_trail`).  This is the src/search.py composition. -/
def extract_breadcrumb_trail (item : Item) : String :=
  if item.listitemNames ≠ [] then
    -- trail = [li['name'] for li in listitem[:-1]]; trail.insert(0, displayLink)
    String.intercalate " > " (item.displayLink :: item.listitemNames.dropLast)
  else
    let url_part := stripProtocol item.link.toList
    let trail := String.mk (stripAfterStop url_part)
    refine_breadcrumb_trail (trail.splitOn "/")

/-- `extract_results` (src/search.py lines 36-47): map each item to a
result record. -/
def extract_results (body : ResponseBody) : List SearchResult :=
  body.items.map (fun item =>
    { title := item.htmlTitle
      link := some item.link
      display_link := some item.displayLink
      snippet := item.htmlSnippet
      breadcrumb_trail := extract_breadcrumb_trail item })

/-- `get_next_start` (src/search.py lines 49-52): the pagination hint, `0`
when absent. -/
def get_next_start (body : ResponseBody) : Int :=
  body.nextPageStartIndex.getD 0

/-- The numeric value of a decimal digit character, if it is one. -/
def digitVal (c : Char) : Option Nat :=
  let n := c.toNat
  if 48 ≤ n ∧ n ≤ 57 then some (n - 48) else none

/-- Parse a nonempty all-digit character list as a natural number. -/
def parseDigits (cs : List Char) : Option Nat :=
  if cs = [] then none
  else cs.foldl (fun acc c =>
    match acc, digitVal c with
    | some n, some d => some (n * 10 + d)
    | _, _ => none) (some 0)

/-- Python `int(s)` on the `totalResults` string: an optional sign followed
by digits (surrounding whitespace and underscore separators, which Python
also accepts, never occur in this field); `ValueError` otherwise. -/
def pyInt (s : String) : Except PyErr Int :=
  let parsed : Option Int :=
    match s.data with
    | '-' :: rest => (parseDigits rest).map (fun n => -(n : Int))
    | '+' :: rest => (parseDigits rest).map (fun n => (n : Int))
    | cs => (parseDigits cs).map (fun n => (n : Int))
  match parsed with
  | some n => .ok n
  | none => .error (.valueError s)

/-- The 4-tuple a page fetch produces:
`(results, next_start, total_results, search_time)`. -/
abbrev GPage := List SearchResult × Int × Int × ℚ

/-- `google_search` (src/search.py lines 7-34).  The whole body runs inside
`try: ... except Exception:`, so an API error object (raised as an
`Exception`), a transport failure, and even a `totalResults` parse failure
all collapse to the default page `([], 0, 0, 0)`; the function never raises. -/
def google_search (resp : RawResponse) : GPage :=
  match resp with
  | .transportError _ => ([], 0, 0, 0)
  | .ok body =>
    match body.error with
    | some _ => ([], 0, 0, 0)  -- raise Exception(...) caught by the same try
    | none =>
      match pyInt (body.totalResults.getD "0") with
      | .error _ => ([], 0, 0, 0)  -- int() ValueError caught by the same try
      | .ok total =>
        (extract_results body, get_next_start body, total, round2 body.searchTime)

/-- `google_search` (src/app.py lines 211-251).  Only
`requests.exceptions.RequestException` is caught, and an API error object is
returned (not raised) as the default page; an internal fault such as a
`totalResults` parse failure propagates to the caller. -/
def google_search_app (resp : RawResponse) : Except PyErr GPage :=
  match resp with
  | .transportError _ => .ok ([], 0, 0, 0)  -- except RequestException: return default_types()
  | .ok body =>
    match body.error with
    | some _ => .ok ([], 0, 0, 0)  -- log_error_message(...); return default_types()
    | none => do
      let total ← pyInt (body.totalResults.getD "0")  -- int(...) may raise ValueError
      return (extract_results body, get_next_start body, total, round2 body.searchTime)

/-! ## Aggregator (`src/search.py` lines 79-105, `src/app.py` lines 320-354)

`fetch_all_results` is line-for-line the same in both files; it is embedded
once, parameterized by the page fetcher it calls (`google_search` composed
with the per-start remote response).  The fetcher may raise — `fetch_all_results`
wraps only `future.result()` of the concurrent fetches in `try/except`, so a
fault of the first synchronous fetch propagates; the function's result is
therefore an `Except`.  The `order` argument is the completion order produced
by `as_completed`: a permutation of the submitted start indices. -/

/-- `remaining_pages = min(max_queries - 1, (total_results - 1) // MAX_RESULTS)`
(src/search.py line 85, src/app.py line 328). Python `//` is floor division. -/
def remaining_pages (total_results max_queries : Int) : Int :=
  min (max_queries - 1) (Int.fdiv (total_results - 1) MAX_RESULTS)

/-- `remaining_indices = [next_start + i * MAX_RESULTS for i in range(remaining_pages)]`
(src/search.py line 89). `range` of a non-positive count is empty. -/
def remaining_indices (next_start rp : Int) : List Int :=
  (List.range rp.toNat).map (fun i : Nat => next_start + (i : Int) * MAX_RESULTS)

/-- The start indices actually submitted to the thread pool: the executor
block runs only under `if remaining_pages and next_start:` (both truthy,
i.e. nonzero). -/
def fetched_indices (next_start rp : Int) : List Int :=
  if rp ≠ 0 ∧ next_start ≠ 0 then remaining_indices next_start rp else []

/-- One iteration of the `as_completed` loop (src/search.py lines 94-101):
on success store the page's results under its start index and add its
duration; on an exception from `future.result()` log and skip. -/
def fstep (fetcher : Int → Except PyErr GPage)
    (acc : List (Int × List SearchResult) × ℚ) (start : Int) :
    List (Int × List SearchResult) × ℚ :=
  match fetcher start with
  | .ok (rs, _, _, t) => (dictInsert acc.1 start rs, acc.2 + t)
  | .error _ => acc

/-- The merge loop (src/search.py lines 102-104): iterate the stored start
indices in ascending order and concatenate each page's results. -/
def mergeResults (results_map : List (Int × List SearchResult)) : List SearchResult :=
  ((List.insertionSort (· ≤ ·) (results_map.map Prod.fst)).map
    (fun start => (alookup start results_map).getD [])).flatten

/-- `fetch_all_results` (src/search.py lines 79-105, src/app.py lines
320-354), parameterized by the fetcher and by the completion order of the
concurrent fetches. -/
def fetch_all_results (fetcher : Int → Except PyErr GPage) (max_queries : Int)
    (order : List Int) : Except PyErr (List SearchResult × Int × ℚ) :=
  match fetcher 1 with  -- first synchronous fetch: not inside any try/except
  | .error e => .error e
  | .ok (results, next_start, total_results, search_time) =>
    let rp := remaining_pages total_results max_queries
    let init : List (Int × List SearchResult) × ℚ := ([(1, results)], search_time)
    let st :=
      if rp ≠ 0 ∧ next_start ≠ 0 then order.foldl (fstep fetcher) init
      else init
    .ok (mergeResults st.1, total_results, round2 st.2)

/-- The results of a successfully fetched page (used only at start indices
where the fetcher succeeded). -/
def pageResults (fetcher : Int → Except PyErr GPage) (start : Int) : List SearchResult :=
  match fetcher start with
  | .ok p => p.1
  | .error _ => []

/-- The duration contributed by the page at a start index: its reported
duration on success, nothing on a fault. -/
def pageTime (fetcher : Int → Except PyErr GPage) (start : Int) : ℚ :=
  match fetcher start with
  | .ok p => p.2.2.2
  | .error _ => 0

/-- Specification-side merge: sort the `(start index, page results)` pairs by
ascending start index and concatenate the per-page result lists. -/
def concatAscending (pages : List (Int × List SearchResult)) : List SearchResult :=
  ((List.insertionSort (fun a b : Int × List SearchResult => a.1 ≤ b.1) pages).map
    Prod.snd).flatten


/-- A concrete fetcher: page 1 reports total 12 and next-start 11, page 11
succeeds, everything else faults.  Used to exercise the aggregator theorems
on explicit inputs. -/
def sampleFetcher : Int → Except PyErr GPage :=
  fun s =>
    if s = 1 then .ok ([⟨some "t1", some "l1", some "d1", none, "bc1"⟩], 11, 12, 0)
    else if s = 11 then .ok ([⟨some "t2", some "l2", some "d2", none, "bc2"⟩], 21, 12, 0)
    else .error (.other "unexpected start index")

/-- A concrete fetcher whose first page succeeds while every concurrent
sibling faults. -/
def failingSiblingFetcher : Int → Except PyErr GPage :=
  fun s => if s = 1 then .ok ([], 11, 12, 0) else .error (.other "boom")

/-- The src/app.py fetcher applied to a response whose `totalResults` string
is not numeric: `int(...)` raises ValueError, which `google_search` there
does not catch (only `RequestException` is), so the fault reaches
`fetch_all_results` — and its first synchronous call is not inside any
try/except. -/
def badFirstPageFetcher : Int → Except PyErr GPage :=
  fun _ => google_search_app (.ok ⟨none, [], some 11, some "unavailable", 0⟩)

/-! ## Claim-side reference definitions

These definitions transcribe formulas stated by the specification (not by the
code); they exist to be compared against the embedded code. -/

/-- Ceiling division on integers, `⌈a / b⌉` for `b > 0`. -/
def ceilDiv (a b : Int) : Int := -(Int.fdiv (-a) b)

/-- The page-count formula asserted by the specification:
`min(maxPages - 1, ceil((total - 1) / pageSize))`, clamped to `≥ 0`. -/
def claimedRemaining (total_results max_queries : Int) : Int :=
  max 0 (min (max_queries - 1) (ceilDiv (total_results - 1) MAX_RESULTS))

/-- The URL-fallback trail refinement as the specification words it: every
interior segment (neither first nor last) longer than 30 characters becomes
`"..."`, the final segment is truncated to its first 30 characters plus
`"..."` if longer than 30, segments are joined with `" > "`, and a trail
longer than 95 characters is truncated to 95 characters plus `"..."`. -/
def claimed_breadcrumb_refine (segments : List String) : String :=
  let parts :=
    match segments with
    | [] => []
    | [single] => [if single.length > 30 then single.take 30 ++ "..." else single]
    | first :: rest =>
      let last := rest.getLastD ""
      first :: (rest.dropLast.map (fun s => if s.length > 30 then "..." else s)) ++
        [if last.length > 30 then last.take 30 ++ "..." else last]
  let trail := String.intercalate " > " parts
  if trail.length > 95 then trail.take 95 ++ "..." else trail

/-! ## General lemmas about the dict model -/

theorem foldl_congr_mem {α β : Type} {l : List α} {f g : β → α → β}
    (h : ∀ acc x, x ∈ l → f acc x = g acc x) : ∀ a, l.foldl f a = l.foldl g a := by
  induction l with
  | nil => intro a; rfl
  | cons x xs ih =>
    intro a
    simp only [List.foldl_cons]
    rw [h a x (by simp)]
    exact ih (fun acc y hy => h acc y (by simp [hy])) _

theorem alookup_eq_none {α β : Type} [DecidableEq α] (m : List (α × β)) (k : α)
    (h : ¬ ∃ p ∈ m, p.1 = k) : alookup k m = none := by
  induction m with
  | nil => rfl
  | cons p ps ih =>
    simp only [alookup]
    rw [if_neg (fun hc => h ⟨p, by simp, hc⟩)]
    exact ih (fun hc => by obtain ⟨q, hq, hqk⟩ := hc; exact h ⟨q, by simp [hq], hqk⟩)

theorem alookup_append_assoc {α β : Type} [DecidableEq α] (l₁ l₂ : List (α × β)) (k : α) :
    alookup k (l₁ ++ l₂) =
      match alookup k l₁ with
      | some v => some v
      | none => alookup k l₂ := by
  induction l₁ with
  | nil => simp [alookup]
  | cons p ps ih =>
    by_cases h : p.1 = k <;> simp [alookup, h, ih]

theorem alookup_map_replace {α β : Type} [DecidableEq α]
    (m : List (α × β)) (a : α) (v : β) (k : α) :
    alookup k (m.map (fun p => if p.1 = a then (a, v) else p)) =
      if a = k then (if ∃ p ∈ m, p.1 = a then some v else none)
      else alookup k m := by
  induction m with
  | nil => by_cases hak : a = k <;> simp [alookup, hak]
  | cons p ps ih =>
    by_cases hpa : p.1 = a
    · by_cases hak : a = k
      · subst hak; simp [alookup, hpa, ih]
      · have hpk : ¬ p.1 = k := by rw [hpa]; exact hak
        simp only [List.map_cons, if_pos hpa, alookup, if_neg hak, ih]
        rw [if_neg hpk]
    · by_cases hpk : p.1 = k
      · have hak : ¬ a = k := fun h => hpa (hpk.trans h.symm)
        have hka : ¬ k = a := fun h => hak h.symm
        simp [alookup, hpa, hpk, hak, hka]
      · by_cases hak : a = k
        · subst hak
          have hex : (∃ q ∈ p :: ps, q.1 = a) ↔ ∃ q ∈ ps, q.1 = a := by
            simp [hpa]
          simp only [List.map_cons, if_neg hpa, alookup, if_neg hpk, ih, if_pos rfl]
          conv_rhs => rw [if_congr hex rfl rfl]
        · simp [alookup, hpa, hpk, ih, hak]

theorem alookup_dictInsert {α β : Type} [DecidableEq α]
    (m : List (α × β)) (a k : α) (v : β) :
    alookup k (dictInsert m a v) = if a = k then some v else alookup k m := by
  unfold dictInsert
  by_cases hex : ∃ p ∈ m, p.1 = a
  · rw [if_pos hex, alookup_map_replace, if_pos hex]
  · rw [if_neg hex, alookup_append_assoc]
    by_cases hak : a = k
    · subst hak
      rw [alookup_eq_none m a hex]
      simp [alookup]
    · cases h : alookup k m <;> simp [alookup, hak, h]

/-- Fresh-key dict assignments from the left are plain appends. -/
theorem foldl_dictInsert_fresh {α β : Type} [DecidableEq α] :
    ∀ (l acc : List (α × β)),
    (∀ p ∈ l, ∀ q ∈ acc, q.1 ≠ p.1) → (l.map Prod.fst).Nodup →
    l.foldl (fun m p => dictInsert m p.1 p.2) acc = acc ++ l := by
  intro l
  induction l with
  | nil => intro acc _ _; simp
  | cons p ps ih =>
    intro acc hfresh hnd
    have hstep : dictInsert acc p.1 p.2 = acc ++ [(p.1, p.2)] := by
      unfold dictInsert
      rw [if_neg (fun hc => by
        obtain ⟨q, hq, hqk⟩ := hc
        exact hfresh p (by simp) q hq hqk)]
    simp only [List.foldl_cons, hstep]
    rw [ih (acc ++ [(p.1, p.2)]) ?fresh ?nodup]
    · simp
    case fresh =>
      intro x hx q hq
      rcases List.mem_append.mp hq with hq | hq
      · exact hfresh x (by simp [hx]) q hq
      · simp only [List.mem_singleton] at hq
        subst hq
        simp only [List.map_cons, List.nodup_cons] at hnd
        intro hc
        exact hnd.1 (hc ▸ List.mem_map_of_mem Prod.fst hx)
    case nodup =>
      simp only [List.map_cons, List.nodup_cons] at hnd
      exact hnd.2

/-- Folding the same dict assignments over two maps preserves pointwise
lookup agreement away from a distinguished key. -/
theorem foldl_dictInsert_agree {α β γ : Type} [DecidableEq α]
    (kf : γ → α) (vf : γ → β) (key : α) :
    ∀ (l : List γ) (m₁ m₂ : List (α × β)),
    (∀ k, k ≠ key → alookup k m₁ = alookup k m₂) →
    ∀ k, k ≠ key →
      alookup k (l.foldl (fun m u => dictInsert m (kf u) (vf u)) m₁) =
      alookup k (l.foldl (fun m u => dictInsert m (kf u) (vf u)) m₂) := by
  intro l
  induction l with
  | nil => intro m₁ m₂ h k hk; exact h k hk
  | cons u us ih =>
    intro m₁ m₂ h k hk
    simp only [List.foldl_cons]
    refine ih _ _ (fun k' hk' => ?_) k hk
    rw [alookup_dictInsert, alookup_dictInsert]
    by_cases hu : kf u = k' <;> simp [hu, h k' hk']

/-! ## Lemmas on the delete phase of the two update functions -/

theorem foldlM_popKey_ok_sublist :
    ∀ (dels : List String) (env env' : EnvData),
    dels.foldlM popKey env = .ok env' → env'.Sublist env := by
  intro dels
  induction dels with
  | nil =>
    intro env env' h
    simp only [List.foldlM_nil] at h
    cases h
    exact List.Sublist.refl _
  | cons d ds ih =>
    intro env env' h
    rw [List.foldlM_cons] at h
    cases hp : popKey env d with
    | error e =>
      rw [hp] at h
      simp only [Bind.bind, Except.bind] at h
      cases h
    | ok env₂ =>
      rw [hp] at h
      simp only [Bind.bind, Except.bind] at h
      have h2 : env₂.Sublist env := by
        unfold popKey at hp
        split at hp
        · cases hp
          exact List.eraseP_sublist env
        · cases hp
      exact (ih env₂ env' h).trans h2

theorem foldlM_removeFirst_ok_sublist :
    ∀ (dels : List String) (ds ds' : List String),
    dels.foldlM removeFirst ds = .ok ds' → ds'.Sublist ds := by
  intro dels
  induction dels with
  | nil =>
    intro ds ds' h
    simp only [List.foldlM_nil] at h
    cases h
    exact List.Sublist.refl _
  | cons d dels' ih =>
    intro ds ds' h
    rw [List.foldlM_cons] at h
    cases hp : removeFirst ds d with
    | error e =>
      rw [hp] at h
      simp only [Bind.bind, Except.bind] at h
      cases h
    | ok ds₂ =>
      rw [hp] at h
      simp only [Bind.bind, Except.bind] at h
      have h2 : ds₂.Sublist ds := by
        unfold removeFirst at hp
        split at hp
        · cases hp
          exact List.erase_sublist d ds
        · cases hp
      exact (ih ds₂ ds' h).trans h2

theorem foldlM_popKey_err :
    ∀ (dels : List String) (env : EnvData),
    (∃ n ∈ dels, n ∉ env.map Prod.fst) →
    ∃ nm, dels.foldlM popKey env = .error (.keyError nm) := by
  intro dels
  induction dels with
  | nil =>
    intro env h
    obtain ⟨n, hn, _⟩ := h
    cases hn
  | cons d ds ih =>
    intro env h
    obtain ⟨n, hn, hnk⟩ := h
    by_cases hd : ∃ p ∈ env, p.1 = d
    · have hnd : n ≠ d := by
        intro hc
        subst hc
        obtain ⟨p, hp, hpn⟩ := hd
        exact hnk (hpn ▸ List.mem_map_of_mem Prod.fst hp)
      have hn' : n ∈ ds := by
        rcases List.mem_cons.mp hn with hc | hc
        · exact absurd hc hnd
        · exact hc
      have hnk' : n ∉ (env.eraseP (fun p => p.1 = d)).map Prod.fst := by
        intro hc
        exact hnk (((List.eraseP_sublist env).map Prod.fst).subset hc)
      obtain ⟨nm, hnm⟩ := ih (env.eraseP (fun p => p.1 = d)) ⟨n, hn', hnk'⟩
      refine ⟨nm, ?_⟩
      rw [List.foldlM_cons]
      rw [show popKey env d = .ok (env.eraseP (fun p => p.1 = d)) from by
        unfold popKey; rw [if_pos hd]]
      simpa [Bind.bind, Except.bind] using hnm
    · refine ⟨d, ?_⟩
      rw [List.foldlM_cons]
      rw [show popKey env d = .error (.keyError d) from by
        unfold popKey; rw [if_neg hd]]
      simp [Bind.bind, Except.bind]

theorem foldlM_removeFirst_err :
    ∀ (dels : List String) (ds : List String),
    (∃ n ∈ dels, n ∉ ds) →
    ∃ nm, dels.foldlM removeFirst ds = .error (.valueError nm) := by
  intro dels
  induction dels with
  | nil =>
    intro ds h
    obtain ⟨n, hn, _⟩ := h
    cases hn
  | cons d dels' ih =>
    intro ds h
    obtain ⟨n, hn, hnk⟩ := h
    by_cases hd : ds.contains d
    · have hnd : n ≠ d := by
        intro hc
        subst hc
        exact hnk (by simpa using hd)
      have hn' : n ∈ dels' := by
        rcases List.mem_cons.mp hn with hc | hc
        · exact absurd hc hnd
        · exact hc
      have hnk' : n ∉ ds.erase d := fun hc =>
        hnk ((List.erase_sublist d ds).subset hc)
      obtain ⟨nm, hnm⟩ := ih (ds.erase d) ⟨n, hn', hnk'⟩
      refine ⟨nm, ?_⟩
      rw [List.foldlM_cons]
      rw [show removeFirst ds d = .ok (ds.erase d) from by
        unfold removeFirst; rw [if_pos hd]]
      simpa [Bind.bind, Except.bind] using hnm
    · refine ⟨d, ?_⟩
      rw [List.foldlM_cons]
      rw [show removeFirst ds d = .error (.valueError d) from by
        unfold removeFirst; rw [if_neg hd]]
      simp [Bind.bind, Except.bind]

/-! ## Claims about the Configuration Change Engine -/

/-- C7: applying an empty changeset (`{}` parses to no del/upd/add entries)
to either store form is a no-op: the store is returned unchanged and the
rewritten file is byte-for-byte the previous content (which, for a store
written by these functions, is exactly its canonical rendering). -/
theorem empty_changeset_noop (env : EnvData) (domains : List String)
    (oldEnvFile oldDomainsFile : String)
    (hnd : (env.map Prod.fst).Nodup)
    (hE : oldEnvFile = renderEnv env)
    (hD : oldDomainsFile = renderProxy domains) :
    update_env_file env ⟨[], [], []⟩ = .ok env ∧
    runUpdateEnv oldEnvFile env ⟨[], [], []⟩ = oldEnvFile ∧
    update_proxy_file domains ⟨[], [], []⟩ = .ok domains ∧
    runUpdateProxy oldDomainsFile domains ⟨[], [], []⟩ = oldDomainsFile := by
  have key : env.foldl (fun acc (p : String × Option String) =>
      dictInsert acc p.1 p.2) [] = env :=
    (foldl_dictInsert_fresh env [] (by intro p _ q hq; cases hq) hnd).trans
      (List.nil_append env)
  have hcongr : List.foldl (fun acc (p : String × Option String) =>
      let u := (alookup p.1 ([] : List (String × (String × Option String)))).getD (p.1, none)
      dictInsert acc u.1 (pyOrElse u.2 p.2)) [] env
      = List.foldl (fun acc (p : String × Option String) => dictInsert acc p.1 p.2) [] env :=
    foldl_congr_mem (fun acc x _ => rfl) []
  have henv : update_env_file env ⟨[], [], []⟩ = .ok env := by
    show Except.ok (env.foldl (fun acc p =>
      let u := (alookup p.1 ([] : List (String × (String × Option String)))).getD (p.1, none)
      dictInsert acc u.1 (pyOrElse u.2 p.2)) []) = Except.ok env
    exact congrArg Except.ok (hcongr.trans key)
  have hproxy : update_proxy_file domains ⟨[], [], []⟩ = .ok domains := by
    show Except.ok (domains.map fun d =>
      (alookup d ([] : List (String × String))).getD d) = Except.ok domains
    simp [alookup]
  refine ⟨henv, ?_, hproxy, ?_⟩
  · unfold runUpdateEnv
    rw [henv, hE]
  · unfold runUpdateProxy
    rw [hproxy, hD]

theorem update_env_file_ok (env env' : EnvData) (chs : EnvChanges)
    (hdel : chs.del.foldlM popKey env = .ok env') :
    update_env_file env chs =
      .ok (chs.add.foldl (fun e a => dictInsert e a.name a.value)
        (env'.foldl (fun acc p =>
          let u := (alookup p.1
            (chs.upd.foldl (fun m w => dictInsert m w.original (w.name, w.value)) [])).getD
            (p.1, none)
          dictInsert acc u.1 (pyOrElse u.2 p.2)) [])) := by
  unfold update_env_file
  rw [hdel]

theorem update_env_file_err (env : EnvData) (chs : EnvChanges) (e : PyErr)
    (hdel : chs.del.foldlM popKey env = .error e) :
    update_env_file env chs = .error e := by
  unfold update_env_file
  rw [hdel]

theorem update_proxy_file_ok (ds ds' : List String) (chs : ProxyChanges)
    (hdel : chs.del.foldlM removeFirst ds = .ok ds') :
    update_proxy_file ds chs =
      .ok (chs.add.foldl (fun l a => l ++ [a.name])
        (ds'.map (fun d =>
          (alookup d (chs.upd.foldl (fun m w => dictInsert m w.original w.name) [])).getD d))) := by
  unfold update_proxy_file
  rw [hdel]

theorem update_proxy_file_err (ds : List String) (chs : ProxyChanges) (e : PyErr)
    (hdel : chs.del.foldlM removeFirst ds = .error e) :
    update_proxy_file ds chs = .error e := by
  unfold update_proxy_file
  rw [hdel]

/-- Witness for C7 at a concrete store pair. -/
theorem empty_changeset_noop_witness :
    update_env_file [("A", some "1")] ⟨[], [], []⟩ = .ok [("A", some "1")] ∧
    runUpdateEnv (renderEnv [("A", some "1")]) [("A", some "1")] ⟨[], [], []⟩ =
      renderEnv [("A", some "1")] ∧
    update_proxy_file ["d.com"] ⟨[], [], []⟩ = .ok ["d.com"] ∧
    runUpdateProxy (renderProxy ["d.com"]) ["d.com"] ⟨[], [], []⟩ =
      renderProxy ["d.com"] :=
  empty_changeset_noop [("A", some "1")] ["d.com"] _ _ (by decide) rfl rfl

/-- C10: a delete entry naming an absent store entry raises (KeyError for the
dict store, ValueError for the list store) before the backing file is opened
for writing, so the on-disk content is unchanged. -/
theorem delete_absent_raises_before_write
    (env : EnvData) (echs : EnvChanges) (envFile : String)
    (domains : List String) (pchs : ProxyChanges) (domFile : String)
    (h1 : ∃ n ∈ echs.del, n ∉ env.map Prod.fst)
    (h2 : ∃ n ∈ pchs.del, n ∉ domains) :
    (∃ nm, update_env_file env echs = .error (.keyError nm)) ∧
    runUpdateEnv envFile env echs = envFile ∧
    (∃ nm, update_proxy_file domains pchs = .error (.valueError nm)) ∧
    runUpdateProxy domFile domains pchs = domFile := by
  obtain ⟨nm, hnm⟩ := foldlM_popKey_err echs.del env h1
  obtain ⟨nm2, hnm2⟩ := foldlM_removeFirst_err pchs.del domains h2
  have he := update_env_file_err env echs _ hnm
  have hp := update_proxy_file_err domains pchs _ hnm2
  refine ⟨⟨nm, he⟩, ?_, ⟨nm2, hp⟩, ?_⟩
  · unfold runUpdateEnv
    rw [he]
  · unfold runUpdateProxy
    rw [hp]

/-- Witness for C10 at a concrete input. -/
theorem delete_absent_raises_before_write_witness :
    (∃ nm, update_env_file [("A", some "1")] ⟨["B"], [], []⟩ = .error (.keyError nm)) ∧
    runUpdateEnv "envfile" [("A", some "1")] ⟨["B"], [], []⟩ = "envfile" ∧
    (∃ nm, update_proxy_file ["d.com"] ⟨["e.com"], [], []⟩ = .error (.valueError nm)) ∧
    runUpdateProxy "domfile" ["d.com"] ⟨["e.com"], [], []⟩ = "domfile" :=
  delete_absent_raises_before_write [("A", some "1")] ⟨["B"], [], []⟩ "envfile"
    ["d.com"] ⟨["e.com"], [], []⟩ "domfile"
    ⟨"B", by decide, by decide⟩ ⟨"e.com", by decide, by decide⟩

/-- C9: an update entry whose `original` name is absent from the store is a
no-op for that entry and raises nothing: deleting that entry from the
changeset leaves the result of the apply (and hence the persisted file)
unchanged, for both store forms; in particular the entry causes no error. -/
theorem update_absent_original_noop
    (env : EnvData) (dels : List String) (upd₁ upd₂ : List EnvUpd) (u : EnvUpd)
    (adds : List EnvAdd)
    (domains : List String) (pdels : List String) (pupd₁ pupd₂ : List ProxyUpd)
    (pu : ProxyUpd) (padds : List ProxyAdd)
    (hu : u.original ∉ env.map Prod.fst)
    (hpu : pu.original ∉ domains) :
    update_env_file env ⟨dels, upd₁ ++ u :: upd₂, adds⟩ =
      update_env_file env ⟨dels, upd₁ ++ upd₂, adds⟩ ∧
    update_proxy_file domains ⟨pdels, pupd₁ ++ pu :: pupd₂, padds⟩ =
      update_proxy_file domains ⟨pdels, pupd₁ ++ pupd₂, padds⟩ := by
  constructor
  · cases hdel : dels.foldlM popKey env with
    | error e =>
      rw [update_env_file_err env _ e hdel, update_env_file_err env _ e hdel]
    | ok env' =>
      rw [update_env_file_ok env env' _ hdel, update_env_file_ok env env' _ hdel]
      have hkeys : ∀ p ∈ env', p.1 ≠ u.original := by
        intro p hp hc
        have hsub := foldlM_popKey_ok_sublist dels env env' hdel
        exact hu (hc ▸ List.mem_map_of_mem Prod.fst (hsub.subset hp))
      have hagree : ∀ k, k ≠ u.original →
          alookup k ((upd₁ ++ u :: upd₂).foldl
            (fun m w => dictInsert m w.original (w.name, w.value)) []) =
          alookup k ((upd₁ ++ upd₂).foldl
            (fun m w => dictInsert m w.original (w.name, w.value)) []) := by
        intro k hk
        rw [List.foldl_append, List.foldl_append, List.foldl_cons]
        exact foldl_dictInsert_agree EnvUpd.original (fun w => (w.name, w.value))
          u.original upd₂ _ _
          (fun k' hk' => by
            rw [alookup_dictInsert]
            rw [if_neg (fun hh => hk' hh.symm)])
          k hk
      have hrebuild : env'.foldl (fun acc p =>
          let w := (alookup p.1 ((upd₁ ++ u :: upd₂).foldl
            (fun m w => dictInsert m w.original (w.name, w.value)) [])).getD (p.1, none)
          dictInsert acc w.1 (pyOrElse w.2 p.2)) [] =
          env'.foldl (fun acc p =>
          let w := (alookup p.1 ((upd₁ ++ upd₂).foldl
            (fun m w => dictInsert m w.original (w.name, w.value)) [])).getD (p.1, none)
          dictInsert acc w.1 (pyOrElse w.2 p.2)) [] :=
        foldl_congr_mem (fun acc p hp => by rw [hagree p.1 (hkeys p hp)]) []
      rw [hrebuild]
  · cases hdel : pdels.foldlM removeFirst domains with
    | error e =>
      rw [update_proxy_file_err domains _ e hdel, update_proxy_file_err domains _ e hdel]
    | ok ds' =>
      rw [update_proxy_file_ok domains ds' _ hdel, update_proxy_file_ok domains ds' _ hdel]
      have hkeys : ∀ d ∈ ds', d ≠ pu.original := by
        intro d hd hc
        have hsub := foldlM_removeFirst_ok_sublist pdels domains ds' hdel
        exact hpu (hc ▸ hsub.subset hd)
      have hagree : ∀ k, k ≠ pu.original →
          alookup k ((pupd₁ ++ pu :: pupd₂).foldl
            (fun m w => dictInsert m w.original w.name) []) =
          alookup k ((pupd₁ ++ pupd₂).foldl
            (fun m w => dictInsert m w.original w.name) []) := by
        intro k hk
        rw [List.foldl_append, List.foldl_append, List.foldl_cons]
        exact foldl_dictInsert_agree ProxyUpd.original ProxyUpd.name
          pu.original pupd₂ _ _
          (fun k' hk' => by
            rw [alookup_dictInsert]
            rw [if_neg (fun hh => hk' hh.symm)])
          k hk
      have hmap : ds'.map (fun d =>
          (alookup d ((pupd₁ ++ pu :: pupd₂).foldl
            (fun m w => dictInsert m w.original w.name) [])).getD d) =
          ds'.map (fun d =>
          (alookup d ((pupd₁ ++ pupd₂).foldl
            (fun m w => dictInsert m w.original w.name) [])).getD d) :=
        List.map_congr_left (fun d hd => by rw [hagree d (hkeys d hd)])
      rw [hmap]

/-- Witness for C9 at a concrete input. -/
theorem update_absent_original_noop_witness :
    update_env_file [("A", some "1")]
      ⟨[], [] ++ ⟨"GHOST", "B", some "2"⟩ :: [], []⟩ =
      update_env_file [("A", some "1")] ⟨[], [] ++ [], []⟩ ∧
    update_proxy_file ["d.com"]
      ⟨[], [] ++ ⟨"ghost.com", "e.com"⟩ :: [], []⟩ =
      update_proxy_file ["d.com"] ⟨[], [] ++ [], []⟩ :=
  update_absent_original_noop [("A", some "1")] [] [] [] ⟨"GHOST", "B", some "2"⟩ []
    ["d.com"] [] [] [] ⟨"ghost.com", "e.com"⟩ [] (by decide) (by decide)

/-- Counterexample to C6: applying `{add:[{name:"X"}]}` twice to an empty
list store leaves `"X"` present twice, not exactly once — the list-store
`add` loop appends unconditionally, with no existence check. -/
theorem proxy_add_twice_counterexample :
    update_proxy_file [] ⟨[], [], [⟨"X"⟩]⟩ = .ok ["X"] ∧
    update_proxy_file ["X"] ⟨[], [], [⟨"X"⟩]⟩ = .ok ["X", "X"] ∧
    (["X", "X"].count "X") ≠ 1 := by
  decide

/-- C6 amended: a list-store `add` entry appends its name unconditionally
(even when already present), so applying the same add-changeset twice yields
the name twice; nonempty delete-changesets are not idempotent either — once
the name is gone the second apply raises ValueError. -/
theorem proxy_add_appends_unconditionally
    (ds : List String) (x : String) (hx : x ∉ ds) :
    update_proxy_file ds ⟨[], [], [⟨x⟩]⟩ = .ok (ds ++ [x]) ∧
    update_proxy_file (ds ++ [x]) ⟨[], [], [⟨x⟩]⟩ = .ok (ds ++ [x] ++ [x]) ∧
    update_proxy_file (ds ++ [x]) ⟨[x], [], []⟩ = .ok ds ∧
    update_proxy_file ds ⟨[x], [], []⟩ = .error (.valueError x) := by
  have hrem : removeFirst (ds ++ [x]) x = .ok ds := by
    unfold removeFirst
    rw [if_pos (by simp)]
    rw [List.erase_append_right _ hx]
    simp
  refine ⟨?_, ?_, ?_, ?_⟩
  · rw [update_proxy_file_ok ds ds ⟨[], [], [⟨x⟩]⟩ (by rfl)]
    simp [alookup]
  · rw [update_proxy_file_ok (ds ++ [x]) (ds ++ [x]) ⟨[], [], [⟨x⟩]⟩ (by rfl)]
    simp [alookup]
  · have hdel3 : [x].foldlM removeFirst (ds ++ [x]) = .ok ds := by
      rw [List.foldlM_cons, hrem]
      simp only [Bind.bind, Except.bind, List.foldlM_nil]
      rfl
    rw [update_proxy_file_ok _ ds ⟨[x], [], []⟩ hdel3]
    simp [alookup]
  · have hdel4 : [x].foldlM removeFirst ds = .error (.valueError x) := by
      rw [List.foldlM_cons]
      rw [show removeFirst ds x = .error (.valueError x) from by
        unfold removeFirst
        rw [if_neg (by simpa using hx)]]
      simp [Bind.bind, Except.bind]
    exact update_proxy_file_err ds _ _ hdel4

/-- Witness for the amended C6 at a concrete input. -/
theorem proxy_add_appends_unconditionally_witness :
    update_proxy_file ["a"] ⟨[], [], [⟨"X"⟩]⟩ = .ok (["a"] ++ ["X"]) ∧
    update_proxy_file (["a"] ++ ["X"]) ⟨[], [], [⟨"X"⟩]⟩ = .ok (["a"] ++ ["X"] ++ ["X"]) ∧
    update_proxy_file (["a"] ++ ["X"]) ⟨["X"], [], []⟩ = .ok ["a"] ∧
    update_proxy_file ["a"] ⟨["X"], [], []⟩ = .error (.valueError "X") :=
  proxy_add_appends_unconditionally ["a"] "X" (by decide)

set_option maxRecDepth 40000 in
/-- Counterexample to C5: the two breadcrumb-refinement variants each
violate part of the claimed behaviour.  The src/search.py variant does not
truncate a long final segment (first conjunct: final segment of 31
characters is kept verbatim); the src/app.py variant applies no 95-character
truncation to the joined trail (second conjunct: four 30-character segments
join to a 129-character trail, returned untruncated). -/
theorem refine_breadcrumb_counterexample :
    refine_breadcrumb_trail ["a", "bbbbbbbbbbbbbbbbbbbbbbbbbbbbbbb"] ≠
      claimed_breadcrumb_refine ["a", "bbbbbbbbbbbbbbbbbbbbbbbbbbbbbbb"] ∧
    refine_breadcrumb_trail_app ["cccccccccccccccccccccccccccccc", "cccccccccccccccccccccccccccccc", "cccccccccccccccccccccccccccccc", "cccccccccccccccccccccccccccccc"] ≠
      claimed_breadcrumb_refine ["cccccccccccccccccccccccccccccc", "cccccccccccccccccccccccccccccc", "cccccccccccccccccccccccccccccc", "cccccccccccccccccccccccccccccc"] := by
  decide

/-- C5 amended: the two variants each implement part of the claimed rule.
The src/search.py variant replaces interior segments longer than 30
characters with "...", keeps the first and last segments verbatim, joins
with " > ", and truncates a trail longer than 95 characters to 95 characters
plus "..." ; the src/app.py variant replaces every non-final segment longer
than 30 characters (including the first) with "...", truncates a final
segment longer than 30 characters to its first 30 characters plus "...",
joins with " > ", and never applies the 95-character bound. -/
theorem refine_breadcrumb_characterization (first last : String) (mid : List String) :
    refine_breadcrumb_trail (first :: mid ++ [last]) =
      (let trail := String.intercalate " > "
        (first :: (mid.map (fun s => if s.length > 30 then "..." else s) ++ [last]))
       if trail.length > 95 then trail.take 95 ++ "..." else trail) ∧
    refine_breadcrumb_trail_app (first :: mid ++ [last]) =
      String.intercalate " > "
        ((first :: mid).map (fun s => if s.length > 30 then "..." else s) ++
          [if last.length > 30 then last.take 30 ++ "..." else last]) := by
  have h2 : ((first :: mid ++ [last]).drop 1).dropLast = mid := by
    simp [List.dropLast_concat]
  have h3 : (first :: mid ++ [last]).getLastD "" = last :=
    List.getLastD_concat "" last (first :: mid)
  have h4 : (first :: mid ++ [last]).dropLast = first :: mid :=
    List.dropLast_concat
  constructor
  · unfold refine_breadcrumb_trail
    rw [h2, h3]
    simp [fmtSegment]
  · unfold refine_breadcrumb_trail_app
    rw [h4, h3]
    simp [fmtSegment]

/-! ## Claims about the PageFetcher -/

/-- C3: for both fetcher variants, an API-reported error object in the
response body, or a transport failure (timeout, connection error, non-JSON
body — all surfacing as `requests.exceptions.RequestException`), yields the
default page `([], 0, 0, 0)`; no exception reaches the caller. -/
theorem google_search_default_page (resp : RawResponse)
    (h : (∃ m, resp = .transportError m) ∨ (∃ b, resp = .ok b ∧ b.error.isSome)) :
    google_search resp = ([], 0, 0, 0) ∧
    google_search_app resp = .ok ([], 0, 0, 0) := by
  rcases h with ⟨m, rfl⟩ | ⟨b, rfl, hb⟩
  · exact ⟨rfl, rfl⟩
  · obtain ⟨berr, bitems, bnext, btot, btime⟩ := b
    cases berr with
    | none => cases hb
    | some e => exact ⟨rfl, rfl⟩

/-- Witness for C3: a transport failure and a concrete API error body. -/
theorem google_search_default_page_witness :
    google_search (.transportError "timeout") = ([], 0, 0, 0) ∧
    google_search_app (.ok ⟨some ⟨403, "quota exceeded"⟩, [], none, none, 0⟩) =
      .ok ([], 0, 0, 0) :=
  ⟨(google_search_default_page (.transportError "timeout") (Or.inl ⟨_, rfl⟩)).1,
   (google_search_default_page (.ok ⟨some ⟨403, "quota exceeded"⟩, [], none, none, 0⟩)
     (Or.inr ⟨_, rfl, rfl⟩)).2⟩

/-! ## Lemmas about the aggregator -/

theorem foldl_fstep_eq (fetcher : Int → Except PyErr GPage) :
    ∀ (l : List Int) (m : List (Int × List SearchResult)) (q : ℚ),
    (∀ s ∈ l, ∀ p ∈ m, p.1 ≠ s) → l.Nodup →
    l.foldl (fstep fetcher) (m, q) =
      (m ++ l.filterMap (fun s => match fetcher s with
        | .ok p => some (s, p.1)
        | .error _ => none),
       q + (l.map (pageTime fetcher)).sum) := by
  intro l
  induction l with
  | nil => intro m q _ _; simp
  | cons s ss ih =>
    intro m q hfresh hnd
    simp only [List.foldl_cons]
    cases hf : fetcher s with
    | ok p =>
      obtain ⟨rs, ns, tot, t⟩ := p
      have hstep : fstep fetcher (m, q) s = (dictInsert m s rs, q + t) := by
        unfold fstep
        rw [hf]
      have hins : dictInsert m s rs = m ++ [(s, rs)] := by
        unfold dictInsert
        rw [if_neg (fun hc => by
          obtain ⟨pp, hpp, hpk⟩ := hc
          exact hfresh s (by simp) pp hpp hpk)]
      rw [hstep, hins]
      rw [ih (m ++ [(s, rs)]) (q + t) ?fresh (List.Nodup.of_cons hnd)]
      · have hfm : (s :: ss).filterMap (fun s' => match fetcher s' with
            | .ok p => some (s', p.1)
            | .error _ => none) =
            (s, rs) :: ss.filterMap (fun s' => match fetcher s' with
            | .ok p => some (s', p.1)
            | .error _ => none) := by
          rw [List.filterMap_cons]
          rw [hf]
        rw [hfm]
        have hts : pageTime fetcher s = t := by unfold pageTime; rw [hf]
        simp only [List.map_cons, List.sum_cons, hts]
        rw [List.append_assoc, List.singleton_append, add_assoc]
      case fresh =>
        intro s' hs' pp hpp
        rcases List.mem_append.mp hpp with hpp | hpp
        · exact hfresh s' (by simp [hs']) pp hpp
        · simp only [List.mem_singleton] at hpp
          subst hpp
          simp only [List.nodup_cons] at hnd
          intro hc
          have hys : s = s' := hc
          subst hys
          exact hnd.1 hs'
    | error e =>
      have hstep : fstep fetcher (m, q) s = (m, q) := by
        unfold fstep
        rw [hf]
      rw [hstep]
      rw [ih m q (fun s' hs' pp hpp => hfresh s' (by simp [hs']) pp hpp)
        (List.Nodup.of_cons hnd)]
      have hfm : (s :: ss).filterMap (fun s' => match fetcher s' with
          | .ok p => some (s', p.1)
          | .error _ => none) =
          ss.filterMap (fun s' => match fetcher s' with
          | .ok p => some (s', p.1)
          | .error _ => none) := by
        rw [List.filterMap_cons]
        rw [hf]
      rw [hfm]
      have hts : pageTime fetcher s = 0 := by unfold pageTime; rw [hf]
      simp [hts]

theorem filterMap_ok_keys (fetcher : Int → Except PyErr GPage) (l : List Int) :
    (l.filterMap (fun s => match fetcher s with
      | .ok p => some (s, p.1)
      | .error _ => none)).map Prod.fst
      = l.filter (fun s => (fetcher s).isOk) := by
  induction l with
  | nil => rfl
  | cons s ss ih =>
    rw [List.filterMap_cons, List.filter_cons]
    cases hf : fetcher s with
    | ok p => simp [hf, Except.isOk, Except.toBool, ih]
    | error e => simp [hf, Except.isOk, Except.toBool, ih]

theorem filterMap_ok_eq_map_filter (fetcher : Int → Except PyErr GPage) (l : List Int) :
    l.filterMap (fun s => match fetcher s with
      | .ok p => some (s, p.1)
      | .error _ => none)
      = (l.filter (fun s => (fetcher s).isOk)).map
          (fun s => (s, pageResults fetcher s)) := by
  induction l with
  | nil => rfl
  | cons s ss ih =>
    rw [List.filterMap_cons, List.filter_cons]
    cases hf : fetcher s with
    | ok p => simp [hf, Except.isOk, Except.toBool, ih, pageResults]
    | error e => simp [hf, Except.isOk, Except.toBool, ih]

theorem alookup_perm {β : Type} {l₁ l₂ : List (Int × β)} (hp : l₁.Perm l₂) :
    (l₁.map Prod.fst).Nodup → ∀ k, alookup k l₁ = alookup k l₂ := by
  induction hp with
  | nil => intro _ _; rfl
  | cons x hp ih =>
    intro nd k
    simp only [List.map_cons, List.nodup_cons] at nd
    by_cases hx : x.1 = k <;> simp [alookup, hx, ih nd.2 k]
  | swap x y l =>
    intro nd k
    simp only [List.map_cons, List.nodup_cons, List.mem_cons] at nd
    have hxy : y.1 ≠ x.1 := fun hc => nd.1 (Or.inl hc)
    by_cases h1 : y.1 = k
    · have h2 : ¬ x.1 = k := fun hc => hxy (h1.trans hc.symm)
      simp [alookup, h1, h2]
    · by_cases h2 : x.1 = k <;> simp [alookup, h1, h2]
  | trans hp1 hp2 ih1 ih2 =>
    intro nd k
    have nd2 := ((hp1.map Prod.fst).nodup_iff).mp nd
    exact (ih1 nd k).trans (ih2 nd2 k)

theorem alookup_mem_nodup {α β : Type} [DecidableEq α] :
    ∀ (m : List (α × β)) (p : α × β), p ∈ m → (m.map Prod.fst).Nodup →
    alookup p.1 m = some p.2 := by
  intro m
  induction m with
  | nil => intro p hp _; cases hp
  | cons q qs ih =>
    intro p hp nd
    simp only [List.map_cons, List.nodup_cons] at nd
    rcases List.mem_cons.mp hp with rfl | hp
    · simp [alookup]
    · have hne : q.1 ≠ p.1 := fun hc =>
        nd.1 (hc ▸ List.mem_map_of_mem Prod.fst hp)
      simp only [alookup, if_neg hne]
      exact ih p hp nd.2

theorem mergeResults_perm (m₁ m₂ : List (Int × List SearchResult))
    (hp : m₁.Perm m₂) (nd : (m₁.map Prod.fst).Nodup) :
    mergeResults m₁ = mergeResults m₂ := by
  unfold mergeResults
  have hkeys : (m₁.map Prod.fst).Perm (m₂.map Prod.fst) := hp.map Prod.fst
  have hsorted : List.insertionSort (· ≤ ·) (m₁.map Prod.fst) =
      List.insertionSort (· ≤ ·) (m₂.map Prod.fst) :=
    List.eq_of_perm_of_sorted
      ((List.perm_insertionSort _ _).trans
        (hkeys.trans (List.perm_insertionSort _ _).symm))
      (List.sorted_insertionSort _ _) (List.sorted_insertionSort _ _)
  rw [hsorted]
  congr 1
  exact List.map_congr_left (fun k _ => by rw [alookup_perm hp nd k])

theorem mergeResults_eq_concatAscending (m : List (Int × List SearchResult))
    (nd : (m.map Prod.fst).Nodup) : mergeResults m = concatAscending m := by
  unfold mergeResults concatAscending
  letI : IsTotal (Int × List SearchResult) (fun a b => a.1 ≤ b.1) :=
    ⟨fun a b => le_total a.1 b.1⟩
  letI : IsTrans (Int × List SearchResult) (fun a b => a.1 ≤ b.1) :=
    ⟨fun _ _ _ hab hbc => le_trans hab hbc⟩
  have hpairs := List.sorted_insertionSort
    (fun a b : Int × List SearchResult => a.1 ≤ b.1) m
  have hkeys_sorted : List.Sorted (· ≤ ·)
      ((List.insertionSort (fun a b : Int × List SearchResult => a.1 ≤ b.1) m).map
        Prod.fst) :=
    List.Pairwise.map Prod.fst (fun _ _ h => h) hpairs
  have hkeys_eq :
      (List.insertionSort (fun a b : Int × List SearchResult => a.1 ≤ b.1) m).map
        Prod.fst = List.insertionSort (· ≤ ·) (m.map Prod.fst) :=
    List.eq_of_perm_of_sorted
      (((List.perm_insertionSort _ m).map Prod.fst).trans
        (List.perm_insertionSort _ _).symm)
      hkeys_sorted (List.sorted_insertionSort _ _)
  rw [← hkeys_eq, List.map_map]
  congr 1
  refine List.map_congr_left (fun p hp => ?_)
  have hmem : p ∈ m := (List.perm_insertionSort _ m).subset hp
  show (alookup p.1 m).getD [] = p.2
  rw [alookup_mem_nodup m p hmem nd]
  rfl

theorem remaining_indices_nodup (ns rp : Int) : (remaining_indices ns rp).Nodup := by
  unfold remaining_indices
  have hinj : Function.Injective (fun i : Nat => ns + (i : Int) * MAX_RESULTS) := by
    intro a b hab
    simp only [MAX_RESULTS] at hab
    omega
  exact List.Nodup.map hinj (List.nodup_range _)

theorem fetched_indices_nodup (ns rp : Int) : (fetched_indices ns rp).Nodup := by
  unfold fetched_indices
  split
  · exact remaining_indices_nodup ns rp
  · exact List.nodup_nil

theorem fetch_all_results_ok (fetcher : Int → Except PyErr GPage)
    (mq : Int) (order : List Int) (rs : List SearchResult) (ns tot : Int) (t : ℚ)
    (h1 : fetcher 1 = .ok (rs, ns, tot, t)) :
    fetch_all_results fetcher mq order =
      .ok (mergeResults (if remaining_pages tot mq ≠ 0 ∧ ns ≠ 0 then
            order.foldl (fstep fetcher) ([(1, rs)], t) else ([(1, rs)], t)).1,
          tot,
          round2 (if remaining_pages tot mq ≠ 0 ∧ ns ≠ 0 then
            order.foldl (fstep fetcher) ([(1, rs)], t) else ([(1, rs)], t)).2) := by
  unfold fetch_all_results
  rw [h1]

/-! ## Claims about the Aggregator -/

/-- C1: whenever the first page fetch succeeds, the merged result list
returned by `fetch_all_results` equals the concatenation of the successfully
fetched pages' results (page 1 plus every concurrently fetched page whose
fetch succeeded, keyed by start index) taken in ascending start-index order,
for every completion order of the concurrent fetches, and the returned total
result count is the one reported by the first page.  The returned duration
is likewise completion-order independent. -/
theorem fetch_all_results_order_independent
    (fetcher : Int → Except PyErr GPage) (mq : Int)
    (rs : List SearchResult) (ns tot : Int) (t : ℚ) (order : List Int)
    (h1 : fetcher 1 = .ok (rs, ns, tot, t))
    (hgt : ∀ s ∈ fetched_indices ns (remaining_pages tot mq), 1 < s)
    (hord : order.Perm (fetched_indices ns (remaining_pages tot mq))) :
    fetch_all_results fetcher mq order = .ok
      (concatAscending ((1, rs) ::
        ((fetched_indices ns (remaining_pages tot mq)).filter
          (fun s => (fetcher s).isOk)).map (fun s => (s, pageResults fetcher s))),
       tot,
       round2 (t + ((fetched_indices ns (remaining_pages tot mq)).map
         (pageTime fetcher)).sum)) := by
  have hkeys : ∀ (l : List Int), l.Nodup → (∀ s ∈ l, 1 < s) →
      (((1, rs) :: l.filterMap (fun s => match fetcher s with
        | .ok p => some (s, p.1)
        | .error _ => none)).map Prod.fst).Nodup := by
    intro l hl hgt'
    simp only [List.map_cons]
    rw [filterMap_ok_keys]
    refine List.nodup_cons.mpr ⟨?_, hl.filter _⟩
    intro hmem
    have h1l : (1 : Int) ∈ l := List.mem_of_mem_filter hmem
    exact absurd (hgt' 1 h1l) (lt_irrefl 1)
  rw [fetch_all_results_ok fetcher mq order rs ns tot t h1]
  by_cases hg : remaining_pages tot mq ≠ 0 ∧ ns ≠ 0
  · have hfe : fetched_indices ns (remaining_pages tot mq) =
        remaining_indices ns (remaining_pages tot mq) := by
      unfold fetched_indices
      rw [if_pos hg]
    have hordnd : order.Nodup :=
      hord.nodup_iff.mpr (fetched_indices_nodup ns _)
    have hmem1 : ∀ s ∈ order, 1 < s := fun s hs => hgt s (hord.subset hs)
    rw [if_pos hg]
    rw [foldl_fstep_eq fetcher order [(1, rs)] t
      (fun s hs p hp => by
        simp only [List.mem_singleton] at hp
        subst hp
        exact ne_of_lt (hmem1 s hs)) hordnd]
    rw [List.singleton_append]
    have hperm : ((1, rs) :: order.filterMap (fun s => match fetcher s with
        | .ok p => some (s, p.1)
        | .error _ => none)).Perm
        ((1, rs) :: (fetched_indices ns (remaining_pages tot mq)).filterMap
          (fun s => match fetcher s with
        | .ok p => some (s, p.1)
        | .error _ => none)) :=
      (hord.filterMap _).cons (1, rs)
    rw [mergeResults_perm _ _ hperm (hkeys order hordnd hmem1)]
    rw [mergeResults_eq_concatAscending _
      (hkeys _ (fetched_indices_nodup ns _) hgt)]
    rw [filterMap_ok_eq_map_filter]
    have htime : (order.map (pageTime fetcher)).sum =
        ((fetched_indices ns (remaining_pages tot mq)).map (pageTime fetcher)).sum :=
      (hord.map (pageTime fetcher)).sum_eq
    rw [htime]
  · have hfe : fetched_indices ns (remaining_pages tot mq) = [] := by
      unfold fetched_indices
      rw [if_neg hg]
    rw [if_neg hg, hfe]
    simp only [List.filter_nil, List.map_nil, List.sum_nil, add_zero]
    rw [mergeResults_eq_concatAscending [(1, rs)] (by simp)]

/-- Witness for C1: two pages, completion order `[11]`, concrete results. -/
theorem fetch_all_results_order_independent_witness :
    fetch_all_results sampleFetcher 2 [11] = .ok
      (concatAscending ((1, [⟨some "t1", some "l1", some "d1", none, "bc1"⟩]) ::
        ((fetched_indices 11 (remaining_pages 12 2)).filter
          (fun s => (sampleFetcher s).isOk)).map
            (fun s => (s, pageResults sampleFetcher s))),
       12,
       round2 (0 + ((fetched_indices 11 (remaining_pages 12 2)).map
         (pageTime sampleFetcher)).sum)) :=
  fetch_all_results_order_independent sampleFetcher 2
    [⟨some "t1", some "l1", some "d1", none, "bc1"⟩] 11 12 0 [11]
    rfl (by decide) (by decide)

/-- C8: with `maxPages = 1`, the aggregator returns exactly page 1's results
in their original order, the first page's total, and that single page's
duration (page durations are already rounded to two decimals, which the
hypothesis `round2 t = t` expresses); no concurrent fetch is submitted, so
the completion order is empty. -/
theorem fetch_all_results_single_page
    (fetcher : Int → Except PyErr GPage)
    (rs : List SearchResult) (ns tot : Int) (t : ℚ)
    (h1 : fetcher 1 = .ok (rs, ns, tot, t))
    (ht : round2 t = t) :
    fetch_all_results fetcher 1 [] = .ok (rs, tot, t) := by
  rw [fetch_all_results_ok fetcher 1 [] rs ns tot t h1]
  have hst : (if remaining_pages tot 1 ≠ 0 ∧ ns ≠ 0 then
      ([] : List Int).foldl (fstep fetcher) ([(1, rs)], t)
    else ([(1, rs)], t)) = ([(1, rs)], t) := by
    split <;> rfl
  rw [hst]
  have hm : mergeResults [(1, rs)] = rs := by
    unfold mergeResults
    simp [List.insertionSort, List.orderedInsert, alookup]
  rw [hm, ht]

/-- Witness for C8 at a concrete fetcher. -/
theorem fetch_all_results_single_page_witness :
    fetch_all_results sampleFetcher 1 [] =
      .ok ([⟨some "t1", some "l1", some "d1", none, "bc1"⟩], 12, 0) :=
  fetch_all_results_single_page sampleFetcher
    [⟨some "t1", some "l1", some "d1", none, "bc1"⟩] 11 12 0 rfl
    (by simp [round2, pyRound])

/-- Counterexample to C2: the code computes the remaining page count with
floor division, not the ceiling division the claim states.  At total = 12,
page size 10, maxPages = 3 and next-start 11, the aggregator submits 1
additional page while the claimed formula demands 2. -/
theorem remaining_pages_ceil_counterexample :
    (fetched_indices 11 (remaining_pages 12 3)).length = 1 ∧
    claimedRemaining 12 3 = 2 ∧ (1 : Int) ≠ 2 := by
  decide

/-- C2 amended: the number of additional pages fetched is
`min(maxPages - 1, (total - 1) // pageSize)` (floor division), clamped to
`≥ 0`, when the first page reports a nonzero next-start, and `0` otherwise;
when total = 0 no additional page is fetched and the aggregate returns only
page 1's (then empty) results. -/
theorem remaining_pages_floor (tot mq ns : Int)
    (fetcher : Int → Except PyErr GPage) (rs : List SearchResult) (t : ℚ)
    (h1 : fetcher 1 = .ok (rs, ns, 0, t)) :
    ((fetched_indices ns (remaining_pages tot mq)).length : Int) =
      (if ns ≠ 0 then max 0 (remaining_pages tot mq) else 0) ∧
    (fetched_indices ns (remaining_pages 0 mq)).length = 0 ∧
    fetch_all_results fetcher mq [] = .ok (rs, 0, round2 t) := by
  refine ⟨?_, ?_, ?_⟩
  · unfold fetched_indices
    by_cases hns : ns ≠ 0
    · by_cases hrp : remaining_pages tot mq ≠ 0
      · rw [if_pos ⟨hrp, hns⟩, if_pos hns]
        unfold remaining_indices
        rw [List.length_map, List.length_range]
        omega
      · push_neg at hrp
        rw [if_neg (by tauto), if_pos hns, hrp]
        simp
    · rw [if_neg (by tauto), if_neg hns]
      rfl
  · have hneg : remaining_pages 0 mq < 0 := by
      unfold remaining_pages
      rw [show Int.fdiv (0 - 1) MAX_RESULTS = -1 from by decide]
      exact lt_of_le_of_lt (min_le_right _ _) (by norm_num)
    unfold fetched_indices
    split
    · unfold remaining_indices
      rw [List.length_map, List.length_range]
      omega
    · rfl
  · rw [fetch_all_results_ok fetcher mq [] rs ns 0 t h1]
    have hst : (if remaining_pages 0 mq ≠ 0 ∧ ns ≠ 0 then
        ([] : List Int).foldl (fstep fetcher) ([(1, rs)], t)
      else ([(1, rs)], t)) = ([(1, rs)], t) := by
      split <;> rfl
    rw [hst]
    have hm : mergeResults [(1, rs)] = rs := by
      unfold mergeResults
      simp [List.insertionSort, List.orderedInsert, alookup]
    rw [hm]

/-- Witness for the amended C2 at a concrete input. -/
theorem remaining_pages_floor_witness :
    ((fetched_indices 11 (remaining_pages 12 3)).length : Int) =
      (if (11 : Int) ≠ 0 then max 0 (remaining_pages 12 3) else 0) ∧
    (fetched_indices 11 (remaining_pages 0 3)).length = 0 ∧
    fetch_all_results (fun _ => .ok ([], 11, 0, 0)) 3 [] = .ok ([], 0, round2 0) :=
  remaining_pages_floor 12 3 11 (fun _ => .ok ([], 11, 0, 0)) [] 0 rfl

theorem fetch_all_results_err (fetcher : Int → Except PyErr GPage) (mq : Int)
    (order : List Int) (e : PyErr) (he : fetcher 1 = .error e) :
    fetch_all_results fetcher mq order = .error e := by
  unfold fetch_all_results
  rw [he]

/-- Counterexample to C4: a fetcher-internal fault on the FIRST page is not
caught — `fetch_all_results` wraps only `future.result()` of the concurrent
fetches in try/except, and its first synchronous `google_search` call is
unprotected.  With the src/app.py fetcher and a response whose
`totalResults` is the non-numeric string "unavailable", the `int(...)`
ValueError propagates out of `fetch_all_results`. -/
theorem fetch_all_results_first_page_fault_counterexample :
    fetch_all_results badFirstPageFetcher 3 [] = .error (.valueError "unavailable") :=
  fetch_all_results_err badFirstPageFetcher 3 [] (.valueError "unavailable") rfl

/-- C4 amended: every fault of a concurrently fetched page is caught inside
the aggregator's as_completed loop and treated as a missing page — whenever
the first fetch succeeds the aggregate call returns a result, regardless of
sibling faults; but a fault of the first synchronous fetch is not caught and
propagates out of `fetch_all_results` unchanged. -/
theorem fetch_all_results_fault_policy
    (fetcher : Int → Except PyErr GPage) (mq : Int) (order : List Int)
    (rs : List SearchResult) (ns tot : Int) (t : ℚ) (e : PyErr) :
    (fetcher 1 = .ok (rs, ns, tot, t) →
      ∃ out, fetch_all_results fetcher mq order = .ok out) ∧
    (fetcher 1 = .error e → fetch_all_results fetcher mq order = .error e) := by
  constructor
  · intro h1
    rw [fetch_all_results_ok fetcher mq order rs ns tot t h1]
    exact ⟨_, rfl⟩
  · intro he
    exact fetch_all_results_err fetcher mq order e he

/-- Witness for the amended C4: all siblings fault yet the aggregate
succeeds; a first-page fault propagates. -/
theorem fetch_all_results_fault_policy_witness :
    (∃ out, fetch_all_results failingSiblingFetcher 2 [11] = .ok out) ∧
    fetch_all_results badFirstPageFetcher 3 [] = .error (.valueError "unavailable") :=
  ⟨(fetch_all_results_fault_policy failingSiblingFetcher 2 [11] [] 11 12 0
      (.other "unused")).1 rfl,
   (fetch_all_results_fault_policy badFirstPageFetcher 3 [] [] 0 0 0
      (.valueError "unavailable")).2 rfl⟩
